import Mathlib

/-!
Verification of the supply-chain dashboard data pipeline (`app.py`).

The pipeline is embedded shallowly:
* a table is a `List` of rows, in input order;
* pandas null values (`NaT` for dates, `NaN` for strings produced by a
  failed lookup) are `Option`;
* numeric measures are `ℚ` (the claims under study involve no
  floating-point rounding);
* calendar dates are epoch-day counts (`Int`), produced from civil dates
  by the standard days-from-civil conversion, matching the day
  differences `pandas.to_datetime` arithmetic yields.  CSV reading and
  date-string parsing happen before the modelled boundary: a raw row
  carries its dates already in parsed form (`none` = unparseable/`NaT`).
-/

/-- Days since 1970-01-01 of the civil date y-m-d (Gregorian, proleptic);
the standard conversion also used by datetime libraries. -/
def daysFromCivil (y : Int) (m : Nat) (d : Nat) : Int :=
  let y2 : Int := if m ≤ 2 then y - 1 else y
  let era : Int := (if 0 ≤ y2 then y2 else y2 - 399) / 400
  let yoe : Nat := (y2 - era * 400).toNat
  let mp : Nat := (m + 9) % 12
  let doy : Nat := (153 * mp + 2) / 5 + d - 1
  let doe : Nat := yoe * 365 + yoe / 4 - yoe / 100 + doy
  era * 146097 + (doe : Int) - 719468

/-- Inverse of `daysFromCivil`: the civil date (y, m, d) of an epoch-day
count. -/
def civilFromDays (z0 : Int) : Int × Nat × Nat :=
  let z : Int := z0 + 719468
  let era : Int := (if 0 ≤ z then z else z - 146096) / 146097
  let doe : Nat := (z - era * 146097).toNat
  let yoe : Nat := (doe - doe / 1460 + doe / 36524 - doe / 146096) / 365
  let doy : Nat := doe - (365 * yoe + yoe / 4 - yoe / 100)
  let mp : Nat := (5 * doy + 2) / 153
  let d : Nat := doy - (153 * mp + 2) / 5 + 1
  let m : Nat := if mp < 10 then mp + 3 else mp - 9
  (if m ≤ 2 then (yoe : Int) + era * 400 + 1 else (yoe : Int) + era * 400, m, d)

/-- First day of the month containing epoch-day `z`
(`Series.dt.to_period("M").dt.to_timestamp()`). -/
def monthStart (z : Int) : Int :=
  let c := civilFromDays z
  daysFromCivil c.1 c.2.1 1

/-- One row of the loaded table, after `pd.read_csv` and the two
`pd.to_datetime(..., dayfirst=True, errors="coerce")` coercions of
`app.py` lines 17-18: dates are epoch days, `none` for `NaT`; the
categorical columns are `none` for a missing value. -/
structure RawRow where
  orderId : String
  orderDate : Option Int
  shipDate : Option Int
  shipMode : Option String
  region : Option String
  orderPriority : Option String
  productName : Option String
  customerName : Option String
  segment : Option String
  sales : ℚ
  profit : ℚ
  discount : ℚ
  shippingCost : ℚ
  quantity : ℚ
  deriving DecidableEq, Repr

/-- An enriched row: the raw columns plus the derived columns added by
`preprocess` (`app.py` lines 22-40). -/
structure Row extends RawRow where
  orderProcessingTime : Option Int
  standardSLADays : Int
  isLate : Bool
  profitMargin : Option ℚ
  orderMonth : Option Int
  deriving DecidableEq, Repr

/-- The fixed SLA dictionary `sla_map` of `app.py` lines 25-30. -/
def sla_map (m : String) : Option Int :=
  if m = "Same Day" then some 1
  else if m = "First Class" then some 2
  else if m = "Second Class" then some 4
  else if m = "Standard Class" then some 5
  else none

/-- Embeds `df["Ship Mode"].map(sla_map).fillna(999)` (line 31): a missing ship
mode maps to `NaN`, and `fillna` turns every `NaN` into 999. -/
def standardSLAOf (mode : Option String) : Int :=
  (mode.bind sla_map).getD 999

/-- Embeds `(df["Ship Date"] - df["Order Date"]).dt.days` (line 22): `NaT`
propagates to null. -/
def processingTimeOf (od sd : Option Int) : Option Int :=
  match sd, od with
  | some s, some o => some (s - o)
  | _, _ => none

/-- Embeds `df["Order Processing Time"] > df["Standard SLA Days"]` (line 34):
a pandas comparison against `NaN` yields `False`. -/
def isLateOf (pt : Option Int) (sla : Int) : Bool :=
  match pt with
  | some p => decide (p > sla)
  | none => false

/-- Embeds `df["Sales"].replace({0: np.nan})` (line 37). -/
def replaceZeroWithNull (s : ℚ) : Option ℚ :=
  if s = 0 then none else some s

/-- Embeds `df["Profit"] / df["Sales"].replace({0: np.nan})` (line 37):
division by `NaN` yields `NaN` (null). -/
def profitMarginOf (profit : ℚ) (sales : ℚ) : Option ℚ :=
  (replaceZeroWithNull sales).map (fun s => profit / s)

/-- The per-row effect of `preprocess` (lines 22-40): the raw columns
are kept and the five derived columns are appended. -/
def enrichRow (r : RawRow) : Row :=
  { r with
    orderProcessingTime := processingTimeOf r.orderDate r.shipDate
    standardSLADays := standardSLAOf r.shipMode
    isLate := isLateOf (processingTimeOf r.orderDate r.shipDate) (standardSLAOf r.shipMode)
    profitMargin := profitMarginOf r.profit r.sales
    orderMonth := r.orderDate.map monthStart }

/-- Embeds `preprocess` (lines 14-42): every derived column is an elementwise
column assignment, so the table is mapped row by row. -/
def preprocess (rows : List RawRow) : List Row :=
  rows.map enrichRow

/-- The boolean filter mask of `app.py` lines 69-74 for one row:
`(Order Date >= start) & (Order Date <= end) & Region.isin(regions) &
Ship Mode.isin(ship_modes)`.  A `NaT` date compares `False` against any
date, and `isin` is `False` for a null value when the selection list
holds only strings. -/
def rowMask (s e : Int) (regs modes : List String) (r : Row) : Bool :=
  (match r.orderDate with
   | some d => decide (s ≤ d) && decide (d ≤ e)
   | none => false)
  && (match r.region with
      | some x => regs.contains x
      | none => false)
  && (match r.shipMode with
      | some x => modes.contains x
      | none => false)

/-- Embeds `df_filtered = df[mask]` (line 75). -/
def applyFilter (s e : Int) (regs modes : List String) (tbl : List Row) : List Row :=
  tbl.filter (rowMask s e regs modes)

/-- The inclusion condition exactly as the specification words it
(§4.3): the order date of the row is non-null, its date lies in
`[start, end]` inclusive, its region is a member of `regions` and its
ship mode a member of `ship_modes`.  Used only to compare the spec
against `rowMask`. -/
def specIncluded (s e : Int) (regs modes : List String) (r : Row) : Prop :=
  (∃ d, r.orderDate = some d ∧ s ≤ d ∧ d ≤ e)
  ∧ (∃ x, r.region = some x ∧ x ∈ regs)
  ∧ (∃ y, r.shipMode = some y ∧ y ∈ modes)

instance (s e : Int) (regs modes : List String) (r : Row) :
    Decidable (specIncluded s e regs modes r) := by
  unfold specIncluded
  infer_instance

/-- Embeds `Series.sum()` over a numeric measure. -/
def qsum (f : Row → ℚ) (tbl : List Row) : ℚ :=
  (tbl.map f).sum

/-- Embeds `df_filtered["Sales"].sum()`. -/
def salesSum (tbl : List Row) : ℚ := qsum (fun r => r.sales) tbl

/-- Embeds `df_filtered["Profit"].sum()`. -/
def profitSum (tbl : List Row) : ℚ := qsum (fun r => r.profit) tbl

/-- Embeds `df_filtered["Quantity"].sum()`. -/
def quantitySum (tbl : List Row) : ℚ := qsum (fun r => r.quantity) tbl

/-- Embeds `int(df_filtered["Is Late"].sum())` (line 92): the number of rows
flagged late. -/
def lateCount (tbl : List Row) : Nat :=
  (tbl.filter (fun r => r.isLate)).length

/-- Embeds `100 * late_orders / max(1, df_filtered.shape[0])` (line 94). -/
def latePct (tbl : List Row) : ℚ :=
  100 * (lateCount tbl : ℚ) / max 1 (tbl.length : ℚ)

/-- Embeds `df_filtered["Order ID"].nunique()` (line 91). -/
def nuniqueOrderId (tbl : List Row) : Nat :=
  (tbl.map (fun r => r.orderId)).dedup.length

/-- Embeds `Series.mean()` of a nullable integer column (`skipna` default):
null entries are skipped; the mean of nothing is `NaN` (null). -/
def meanOptInt (f : Row → Option Int) (tbl : List Row) : Option ℚ :=
  let v := tbl.filterMap f
  if v.isEmpty then none
  else some ((v.map (fun i => (i : ℚ))).sum / (v.length : ℚ))

/-- Embeds `df_filtered["Order Processing Time"].mean()` (line 90). -/
def meanProcessing (tbl : List Row) : Option ℚ :=
  meanOptInt (fun r => r.orderProcessingTime) tbl

/-- Embeds `df_filtered["Discount"].mean()` (line 126) over the non-null
numeric column: the mean of an empty table is `NaN` (null). -/
def meanDiscount (tbl : List Row) : Option ℚ :=
  if tbl.isEmpty then none
  else some ((tbl.map (fun r => r.discount)).sum / (tbl.length : ℚ))

/-- Embeds `df_filtered["Profit"].sum() / max(1, df_filtered["Sales"].sum())`
(line 125): the Profit Margin summary metric of tab 2. -/
def overallMargin (tbl : List Row) : ℚ :=
  profitSum tbl / max 1 (salesSum tbl)

/-- Insertion into a strictly ascending key list, keeping it strictly
ascending and duplicate-free: the key order `pandas.groupby` (with its
default `sort=True`) gives the groups. -/
def insertKey (k : String) : List String → List String
  | [] => [k]
  | x :: xs =>
    if k < x then k :: x :: xs
    else if k = x then x :: xs
    else x :: insertKey k xs

/-- The distinct non-null values of a grouping key, in ascending order:
`groupby` drops rows whose key is `NaN` (its default `dropna=True`) and
sorts the remaining group keys. -/
def sortedKeys (key : Row → Option String) (tbl : List Row) : List String :=
  (tbl.filterMap key).foldr insertKey []

/-- A `df_filtered.groupby(key).agg(...)` table: one output row per
distinct non-null key, in ascending key order, carrying the reduction
of the rows of that group (rows in input order). -/
def groupAggBy {β : Type} (key : Row → Option String) (red : List Row → β)
    (tbl : List Row) : List (String × β) :=
  (sortedKeys key tbl).map
    (fun k => (k, red (tbl.filter (fun r => key r == some k))))

/-- Stable insertion into a descending-ordered list: the inserted
element goes after every strictly larger element and before every equal
or smaller one. -/
def insertDesc {α : Type} (f : α → ℚ) (x : α) : List α → List α
  | [] => [x]
  | y :: ys => if f x < f y then y :: insertDesc f x ys else x :: y :: ys

/-- Embeds the small-array path of `DataFrame.sort_values(column,
ascending=False)` as a stable descending insertion sort.  The default
numpy sort runs exactly such a stable insertion sort on arrays below
its quicksort threshold — in particular on the two-group ranked tables
of the concrete counterexample below — but is an unstable quicksort on
larger arrays, whose tie order this function does NOT model.  Every
universal theorem about the ranked selections therefore relies only on
the `SortedDescBy` contract below, which any correct descending sort
(this one included) satisfies. -/
def sortDesc {α : Type} (f : α → ℚ) : List α → List α
  | [] => []
  | x :: xs => insertDesc f x (sortDesc f xs)

/-- The contract `sort_values(column, ascending=False)` honours
regardless of its sort kind: the output is some permutation of the
input that is non-increasing in the sort column.  The default
quicksort guarantees nothing further about the relative order of tied
rows, so universal statements about the ranked selections are made
against this contract rather than against one tie order. -/
def SortedDescBy {α : Type} (f : α → ℚ) (l out : List α) : Prop :=
  l.Perm out ∧ out.Pairwise (fun a b => f b ≤ f a)

/-- The `prod_agg` table of `app.py` lines 154-158: sum of Sales,
Profit and Quantity grouped by Product Name. -/
def prodAgg (tbl : List Row) : List (String × ℚ × ℚ × ℚ) :=
  groupAggBy (fun r => r.productName)
    (fun g => (qsum (fun r => r.sales) g, qsum (fun r => r.profit) g,
               qsum (fun r => r.quantity) g)) tbl

/-- Embeds `prod_agg.sort_values("Sales", ascending=False).head(1)`
(line 160). -/
def best_selling (tbl : List Row) : List (String × ℚ × ℚ × ℚ) :=
  (sortDesc (fun p => p.2.1) (prodAgg tbl)).take 1

/-- The customer-profit table of line 212:
`groupby("Customer Name")["Profit"].sum()`. -/
def custAgg (tbl : List Row) : List (String × ℚ) :=
  groupAggBy (fun r => r.customerName) (fun g => qsum (fun r => r.profit) g) tbl

/-- Embeds the tail `sort_values("Profit", ascending=False).head(10)` of line 212. -/
def top_cust_profit (tbl : List Row) : List (String × ℚ) :=
  (sortDesc (fun p => p.2) (custAgg tbl)).take 10

/-- The `pri` table of lines 110-113: count of distinct Order IDs and
mean processing time grouped by Order Priority. -/
def priAgg (tbl : List Row) : List (String × Nat × Option ℚ) :=
  groupAggBy (fun r => r.orderPriority)
    (fun g => (nuniqueOrderId g, meanProcessing g)) tbl


/-- A representative raw row used to build concrete test tables. -/
def mkRaw : RawRow :=
  { orderId := "O-1", orderDate := some 5, shipDate := some 7,
    shipMode := some "Standard Class", region := some "West",
    orderPriority := some "High", productName := some "Widget",
    customerName := some "Ann", segment := some "Consumer",
    sales := 10, profit := 2, discount := 0, shippingCost := 1, quantity := 1 }

/-- The scenario row of the spec: ordered 2024-03-01, shipped
2024-03-06 by Standard Class. -/
def scenarioRowA : RawRow :=
  { mkRaw with orderDate := some (daysFromCivil 2024 3 1),
               shipDate := some (daysFromCivil 2024 3 6) }

/-- The same scenario row shipped one day later, 2024-03-07. -/
def scenarioRowB : RawRow :=
  { scenarioRowA with shipDate := some (daysFromCivil 2024 3 7) }

/-- A raw row with an unparseable ship date (`NaT`). -/
def noShipRow : RawRow := { mkRaw with shipDate := none }

theorem enrichRow_toRawRow (r : RawRow) : (enrichRow r).toRawRow = r := by
  cases r
  rfl

/-- C2: `is_late` is the strict comparison
`processing_time_days > standard_sla_days`, a null processing time gives
`false` (not null), and the two scenario rows evaluate as the spec
states: 5 days against a 5-day SLA is not late, 6 days is. -/
theorem C2_is_late_strict :
    (∀ r : RawRow, (enrichRow r).orderProcessingTime = none →
      (enrichRow r).isLate = false)
    ∧ (∀ (r : RawRow) (p : Int), (enrichRow r).orderProcessingTime = some p →
      (enrichRow r).isLate = decide (p > (enrichRow r).standardSLADays))
    ∧ ((enrichRow scenarioRowA).orderProcessingTime = some 5
       ∧ (enrichRow scenarioRowA).standardSLADays = 5
       ∧ (enrichRow scenarioRowA).isLate = false)
    ∧ ((enrichRow scenarioRowB).orderProcessingTime = some 6
       ∧ (enrichRow scenarioRowB).isLate = true) := by
  refine ⟨?_, ?_, by decide, by decide⟩
  · intro r h
    simp only [enrichRow] at h ⊢
    rw [h]
    rfl
  · intro r p h
    simp only [enrichRow] at h ⊢
    rw [h]
    rfl

/-- C2 witness: the theorem applied to a concrete row with a null ship
date (null processing time) and to the scenario row. -/
theorem C2_is_late_strict_witness :
    (enrichRow noShipRow).isLate = false
    ∧ (enrichRow scenarioRowB).isLate =
        decide ((6 : Int) > (enrichRow scenarioRowB).standardSLADays) :=
  ⟨C2_is_late_strict.1 noShipRow (by decide),
   C2_is_late_strict.2.1 scenarioRowB 6 (by decide)⟩

/-- C3: `profit_margin` is null exactly when sales is zero and is the
rational `profit / sales` otherwise — a defined value, never a raised
division error, never an infinity. -/
theorem C3_profit_margin :
    (∀ r : RawRow, r.sales = 0 → (enrichRow r).profitMargin = none)
    ∧ (∀ r : RawRow, r.sales ≠ 0 →
        (enrichRow r).profitMargin = some (r.profit / r.sales)) := by
  constructor
  · intro r h
    simp [enrichRow, profitMarginOf, replaceZeroWithNull, h]
  · intro r h
    simp [enrichRow, profitMarginOf, replaceZeroWithNull, h]

/-- C3 witness: the theorem applied to a zero-sales row (`sales = 0`,
`profit = 100`) and to the representative row. -/
theorem C3_profit_margin_witness :
    (enrichRow { mkRaw with sales := 0, profit := 100 }).profitMargin = none
    ∧ (enrichRow mkRaw).profitMargin = some ((2 : ℚ) / 10) :=
  ⟨C3_profit_margin.1 { mkRaw with sales := 0, profit := 100 } (by decide),
   C3_profit_margin.2 mkRaw (by decide)⟩

/-- C5: `standard_sla_days` is total and non-null: the four known ship
modes map through the fixed dictionary and every other (or missing)
ship-mode value yields the sentinel 999. -/
theorem C5_sla_total :
    (standardSLAOf (some "Same Day") = 1
     ∧ standardSLAOf (some "First Class") = 2
     ∧ standardSLAOf (some "Second Class") = 4
     ∧ standardSLAOf (some "Standard Class") = 5
     ∧ standardSLAOf none = 999)
    ∧ (∀ s : String, s ≠ "Same Day" → s ≠ "First Class" →
        s ≠ "Second Class" → s ≠ "Standard Class" →
        standardSLAOf (some s) = 999)
    ∧ (∀ r : RawRow, (enrichRow r).standardSLADays = standardSLAOf r.shipMode) := by
  refine ⟨by decide, ?_, fun r => rfl⟩
  intro s h1 h2 h3 h4
  simp [standardSLAOf, sla_map, h1, h2, h3, h4]

/-- C5 witness: the theorem applied to the unmapped mode "Economy". -/
theorem C5_sla_total_witness : standardSLAOf (some "Economy") = 999 :=
  C5_sla_total.2.1 "Economy" (by decide) (by decide) (by decide) (by decide)

/-- C8: over the empty filtered table every summary metric and
aggregation of the dashboard is defined and non-raising: sums are 0,
means are null, (distinct) counts are 0, the late percentage is 0 via
the `max(1, n)` protected divide, and every group-by table is empty. -/
theorem C8_empty_aggregates :
    meanProcessing [] = none ∧ meanDiscount [] = none
    ∧ nuniqueOrderId [] = 0 ∧ lateCount [] = 0 ∧ latePct [] = 0
    ∧ salesSum [] = 0 ∧ profitSum [] = 0 ∧ quantitySum [] = 0
    ∧ overallMargin [] = 0
    ∧ prodAgg [] = [] ∧ custAgg [] = [] ∧ priAgg [] = []
    ∧ best_selling [] = [] ∧ top_cust_profit [] = [] := by
  refine ⟨rfl, rfl, rfl, rfl, ?_, rfl, rfl, rfl, ?_, rfl, rfl, rfl, rfl, rfl⟩
  · simp [latePct, lateCount]
  · simp [overallMargin, profitSum, qsum]

/-- C9: enrichment drops no rows, reorders no rows, and leaves every
raw column unchanged: projecting the enriched table back onto the raw
columns returns the input table itself. -/
theorem C9_preprocess_preserves :
    ∀ rows : List RawRow,
      (preprocess rows).length = rows.length
      ∧ (preprocess rows).map Row.toRawRow = rows := by
  intro rows
  constructor
  · simp [preprocess]
  · rw [preprocess, List.map_map]
    calc rows.map (Row.toRawRow ∘ enrichRow)
        = rows.map id := List.map_congr_left (fun r _ => enrichRow_toRawRow r)
      _ = rows := rows.map_id

/-- C1: the filter mask agrees with the inclusion condition of the spec
(non-null order date within the inclusive range, region and ship mode
members of the selected sets), empty selections give an empty result,
and filtering preserves the input row order (the result is a sublist of
the input). -/
theorem C1_filter_matches_spec :
    ∀ (s e : Int) (regs modes : List String) (tbl : List Row),
      (∀ r : Row, rowMask s e regs modes r = true ↔ specIncluded s e regs modes r)
      ∧ (regs = [] → applyFilter s e regs modes tbl = [])
      ∧ (modes = [] → applyFilter s e regs modes tbl = [])
      ∧ (applyFilter s e regs modes tbl).Sublist tbl := by
  intro s e regs modes tbl
  have hmask : ∀ r : Row, rowMask s e regs modes r = true ↔
      specIncluded s e regs modes r := by
    intro r
    unfold rowMask specIncluded
    rcases r.orderDate with _ | d <;> rcases r.region with _ | x <;>
      rcases r.shipMode with _ | y <;>
      simp [List.contains, List.elem_iff, and_assoc]
  refine ⟨hmask, ?_, ?_, List.filter_sublist tbl⟩
  · intro h
    subst h
    rw [applyFilter, List.filter_eq_nil_iff]
    intro r _
    rcases hr : r.orderDate with _ | d <;> rcases hx : r.region with _ | x <;>
      simp [rowMask, hr, hx]
  · intro h
    subst h
    rw [applyFilter, List.filter_eq_nil_iff]
    intro r _
    rcases hr : r.orderDate with _ | d <;> rcases hx : r.region with _ | x <;>
      rcases hy : r.shipMode with _ | y <;>
      simp [rowMask, hr, hx, hy]

/-- C1 witness: the theorem applied over a concrete one-row table with
a concrete filter specification, including both empty-selection cases. -/
theorem C1_filter_matches_spec_witness :
    (rowMask 0 10 ["West"] ["Standard Class"] (enrichRow mkRaw) = true ↔
      specIncluded 0 10 ["West"] ["Standard Class"] (enrichRow mkRaw))
    ∧ applyFilter 0 10 [] ["Standard Class"] [enrichRow mkRaw] = []
    ∧ applyFilter 0 10 ["West"] [] [enrichRow mkRaw] = [] :=
  ⟨(C1_filter_matches_spec 0 10 ["West"] ["Standard Class"] [enrichRow mkRaw]).1
      (enrichRow mkRaw),
   (C1_filter_matches_spec 0 10 [] ["Standard Class"] [enrichRow mkRaw]).2.1 rfl,
   (C1_filter_matches_spec 0 10 ["West"] [] [enrichRow mkRaw]).2.2.1 rfl⟩

/-- C10: when the selected region and ship-mode lists hold only strings
(as the sidebar multiselects do), no row with a null Region or a null
Ship Mode ever passes the filter: a null value never satisfies `isin`. -/
theorem C10_null_categoricals_excluded :
    ∀ (s e : Int) (regs modes : List String) (tbl : List Row) (r : Row),
      r ∈ applyFilter s e regs modes tbl →
      r.region ≠ none ∧ r.shipMode ≠ none := by
  intro s e regs modes tbl r hr
  have hm : rowMask s e regs modes r = true := (List.mem_filter.1 hr).2
  constructor
  · intro hx
    rcases hd : r.orderDate with _ | d <;> simp [rowMask, hd, hx] at hm
  · intro hy
    rcases hd : r.orderDate with _ | d <;> rcases hx : r.region with _ | x <;>
      simp [rowMask, hd, hx, hy] at hm

/-- C10 witness: the theorem applied to a concrete row passing a
concrete filter. -/
theorem C10_null_categoricals_excluded_witness :
    (enrichRow mkRaw).region ≠ none ∧ (enrichRow mkRaw).shipMode ≠ none :=
  C10_null_categoricals_excluded 0 10 ["West"] ["Standard Class"]
    [enrichRow mkRaw] (enrichRow mkRaw)
    (List.mem_filter.2 ⟨List.mem_singleton_self _, by decide⟩)


/-- A filtered table consisting of one enriched row with zero sales and
profit 100 — the overall-margin scenario of the spec. -/
def zeroSalesRow : Row := enrichRow { mkRaw with sales := 0, profit := 100 }

/-- C4 counterexample: over a table whose total sales is 0 and total
profit 100, the tab-2 Profit Margin metric
`profit_sum / max(1, sales_sum)` evaluates to 100, not to 0 and not to
an undefined value: `max(1, 0)` clamps the denominator to 1, so the
metric reports the raw profit sum. -/
theorem C4_zero_sales_counterexample :
    salesSum [zeroSalesRow] = 0 ∧ profitSum [zeroSalesRow] = 100
    ∧ overallMargin [zeroSalesRow] = 100 ∧ (100 : ℚ) ≠ 0 := by
  have hs : salesSum [zeroSalesRow] = 0 := by
    simp [salesSum, qsum, zeroSalesRow, enrichRow, mkRaw]
  have hp : profitSum [zeroSalesRow] = 100 := by
    simp [profitSum, qsum, zeroSalesRow, enrichRow, mkRaw]
  refine ⟨hs, hp, ?_, by norm_num⟩
  rw [overallMargin, hs, hp, max_eq_left (by norm_num : (0 : ℚ) ≤ 1), div_one]

/-- C4 amended: the overall profit-margin metric never raises (it is a
total function), but when the total sales of the filtered table are 0
it reports the total profit of the table (the denominator is clamped to
1 by `max(1, ...)`), not 0. -/
theorem C4_amended_margin_guard :
    ∀ tbl : List Row, salesSum tbl = 0 → overallMargin tbl = profitSum tbl := by
  intro tbl h
  rw [overallMargin, h, max_eq_left (by norm_num : (0 : ℚ) ≤ 1), div_one]

/-- C4 witness: the amended theorem applied to the concrete
zero-total-sales table. -/
theorem C4_amended_margin_guard_witness :
    overallMargin [zeroSalesRow] = profitSum [zeroSalesRow] :=
  C4_amended_margin_guard [zeroSalesRow]
    (by simp [salesSum, qsum, zeroSalesRow, enrichRow, mkRaw])

/-- An enriched row whose Order Priority is missing. -/
def nullPriRow : Row := enrichRow { mkRaw with orderPriority := none, orderId := "O-2" }

/-- A two-row table, one row with a null grouping key. -/
def ex6 : List Row := [enrichRow mkRaw, nullPriRow]

/-- C6 counterexample: grouping a two-row table by Order Priority, where
one row has a null priority, yields a single one-row-backed group — the
null-priority row lands in no bucket and its distinct order id is
counted nowhere, rather than being kept in a null bucket. -/
theorem C6_null_key_counterexample :
    ex6.length = 2 ∧ priAgg ex6 = [("High", 1, some 2)]
    ∧ (priAgg ex6).length = 1 := by
  refine ⟨rfl, ?_, ?_⟩
  · rw [priAgg, groupAggBy]
    rw [show sortedKeys (fun r => r.orderPriority) ex6 = ["High"] from by decide]
    simp only [List.map,
      show ex6.filter (fun r => (fun r : Row => r.orderPriority) r == some "High")
        = [enrichRow mkRaw] from rfl]
    simp [meanProcessing, meanOptInt, enrichRow, mkRaw, processingTimeOf,
      nuniqueOrderId]
  · rw [priAgg, groupAggBy, List.length_map]
    rw [show sortedKeys (fun r => r.orderPriority) ex6 = ["High"] from by decide]
    rfl

theorem filterMap_filter_isSome (key : Row → Option String) (tbl : List Row) :
    (tbl.filter (fun r => (key r).isSome)).filterMap key = tbl.filterMap key := by
  induction tbl with
  | nil => rfl
  | cons r tl ih =>
      cases hk : key r <;>
        simp [List.filter_cons, List.filterMap_cons, hk, ih]

theorem filter_key_filter_isSome (key : Row → Option String) (tbl : List Row)
    (k : String) :
    (tbl.filter (fun r => (key r).isSome)).filter (fun r => key r == some k)
      = tbl.filter (fun r => key r == some k) := by
  rw [List.filter_filter]
  apply List.filter_congr
  intro r _
  cases hk : key r <;> simp [hk]

/-- C6 amended: rows whose grouping-key value is null are silently
dropped by every group-by aggregation of the dashboard (the pandas
default `dropna=True`): the aggregation over a table equals the
aggregation over the table with the null-key rows removed, and since
every output key is a string, no null bucket ever appears. -/
theorem C6_amended_null_keys_dropped :
    ∀ {β : Type} (key : Row → Option String) (red : List Row → β)
      (tbl : List Row),
      groupAggBy key red (tbl.filter (fun r => (key r).isSome))
        = groupAggBy key red tbl := by
  intro β key red tbl
  unfold groupAggBy sortedKeys
  rw [filterMap_filter_isSome]
  exact List.map_congr_left (fun k _ => by rw [filter_key_filter_isSome])

theorem insertDesc_perm {α : Type} (f : α → ℚ) (x : α) (l : List α) :
    (x :: l).Perm (insertDesc f x l) := by
  induction l with
  | nil => rfl
  | cons y ys ih =>
      by_cases h : f x < f y
      · rw [insertDesc, if_pos h]
        exact (List.Perm.swap y x ys).trans (ih.cons y)
      · rw [insertDesc, if_neg h]

theorem sortDesc_perm {α : Type} (f : α → ℚ) (l : List α) :
    l.Perm (sortDesc f l) := by
  induction l with
  | nil => rfl
  | cons x xs ih => exact (ih.cons x).trans (insertDesc_perm f x (sortDesc f xs))

theorem insertDesc_pairwise_le {α : Type} (f : α → ℚ) (x : α) (l : List α)
    (hl : l.Pairwise (fun a b => f b ≤ f a)) :
    (insertDesc f x l).Pairwise (fun a b => f b ≤ f a) := by
  induction l with
  | nil => simp [insertDesc]
  | cons y ys ih =>
      rcases List.pairwise_cons.1 hl with ⟨hy, hys⟩
      by_cases h : f x < f y
      · rw [insertDesc, if_pos h]
        refine List.pairwise_cons.2 ⟨?_, ih hys⟩
        intro z hz
        rcases List.mem_cons.1 ((insertDesc_perm f x ys).symm.subset hz) with
          rfl | hzys
        · exact le_of_lt h
        · exact hy z hzys
      · rw [insertDesc, if_neg h]
        refine List.pairwise_cons.2 ⟨?_, hl⟩
        intro z hz
        rcases List.mem_cons.1 hz with rfl | hzys
        · exact not_lt.1 h
        · exact le_trans (hy z hzys) (not_lt.1 h)

theorem sortDesc_pairwise_le {α : Type} (f : α → ℚ) (l : List α) :
    (sortDesc f l).Pairwise (fun a b => f b ≤ f a) := by
  induction l with
  | nil => simp [sortDesc]
  | cons x xs ih =>
      rw [sortDesc]
      exact insertDesc_pairwise_le f x _ ih

theorem sortDesc_sortedDescBy {α : Type} (f : α → ℚ) (l : List α) :
    SortedDescBy f l (sortDesc f l) :=
  ⟨sortDesc_perm f l, sortDesc_pairwise_le f l⟩

theorem sortedDescBy_head_max {α : Type} (f : α → ℚ) (l out : List α)
    (h : SortedDescBy f l out) :
    ∀ x ∈ out.take 1, ∀ g ∈ l, f g ≤ f x := by
  rcases h with ⟨hperm, hpair⟩
  cases out with
  | nil =>
      intro x hx
      simp at hx
  | cons a t =>
      intro x hx g hg
      have hxa : x = a := by simpa using hx
      subst hxa
      rcases List.mem_cons.1 (hperm.subset hg) with rfl | hgt
      · exact le_refl _
      · exact (List.pairwise_cons.1 hpair).1 g hgt

/-- Two rows with equal sales whose product names reverse the input
order: product "B" appears first in the table. -/
def tieRowB : Row :=
  enrichRow { mkRaw with productName := some "B", orderId := "O-3", profit := 1 }

/-- The tied row appearing second in the table, with product name "A". -/
def tieRowA : Row :=
  enrichRow { mkRaw with productName := some "A", orderId := "O-4", profit := 2 }

/-- The two-row tie table: "B" before "A", both with sales 10. -/
def ex7 : List Row := [tieRowB, tieRowA]

theorem sortedKeys_ex7 :
    sortedKeys (fun r => r.productName) ex7 = ["A", "B"] := by
  simp only [sortedKeys, ex7]
  rw [show (List.filterMap (fun r => r.productName) [tieRowB, tieRowA])
      = ["B", "A"] from rfl]
  simp [insertKey]
  decide

theorem prodAgg_ex7 :
    prodAgg ex7 = [("A", 10, 2, 1), ("B", 10, 1, 1)] := by
  rw [prodAgg, groupAggBy, sortedKeys_ex7]
  simp only [List.map,
    show ex7.filter (fun r => (fun r : Row => r.productName) r == some "A")
      = [tieRowA] from rfl,
    show ex7.filter (fun r => (fun r : Row => r.productName) r == some "B")
      = [tieRowB] from rfl]
  simp [qsum, tieRowA, tieRowB, enrichRow, mkRaw]

/-- C7 counterexample: in a table whose rows are product "B" then
product "A" with equal sales 10, the top-1-by-sales selection returns
"A", not the earlier-in-input "B": the group-by orders groups by key,
so the tied groups reach the ranking sort in ascending key order, not
input order (and on this two-element array the real sort is the stable
insertion sort, so the selection is exactly "A"). -/
theorem C7_tie_counterexample :
    ex7.map (fun r => r.productName) = [some "B", some "A"]
    ∧ prodAgg ex7 = [("A", 10, 2, 1), ("B", 10, 1, 1)]
    ∧ best_selling ex7 = [("A", 10, 2, 1)]
    ∧ ("A" : String) ≠ "B" := by
  refine ⟨rfl, prodAgg_ex7, ?_, by decide⟩
  rw [best_selling, prodAgg_ex7]
  decide

/-- C7 amended: ties are not broken by original input row order, and
the source fixes no tie order at all (its ranking sort is an unstable
quicksort above the insertion-sort threshold).  What the ranked
selections do guarantee — for every tie order the sort may produce —
is the `SortedDescBy` contract: any ranked output is a
measure-descending permutation of the grouped table, so every
admissible top-1-by-sales selection attains the maximal sales among
the product groups and every admissible top-10-by-profit list is
non-increasing in profit; the embedded `sortDesc` satisfies the
contract. -/
theorem C7_amended_ranked :
    ∀ tbl : List Row,
      SortedDescBy (fun p => p.2.1) (prodAgg tbl)
        (sortDesc (fun p => p.2.1) (prodAgg tbl))
      ∧ (∀ out, SortedDescBy (fun p => p.2.1) (prodAgg tbl) out →
          ∀ h ∈ out.take 1, ∀ g ∈ prodAgg tbl, g.2.1 ≤ h.2.1)
      ∧ SortedDescBy (fun p => p.2) (custAgg tbl)
        (sortDesc (fun p => p.2) (custAgg tbl))
      ∧ (∀ out, SortedDescBy (fun p => p.2) (custAgg tbl) out →
          (out.take 10).Pairwise (fun a b => b.2 ≤ a.2)) := by
  intro tbl
  refine ⟨sortDesc_sortedDescBy _ _, ?_, sortDesc_sortedDescBy _ _, ?_⟩
  · intro out hout
    exact sortedDescBy_head_max (fun p => p.2.1) (prodAgg tbl) out hout
  · intro out hout
    exact List.Pairwise.sublist (List.take_sublist 10 _) hout.2

/-- C7 witness: the amended theorem applied to the concrete tie table,
with the contract hypothesis discharged by the theorem itself at the
embedded sort: the tied group ("B", sales 10) does not exceed the
selected top-1 group ("A", sales 10). -/
theorem C7_amended_ranked_witness :
    (("B", 10, 1, 1) : String × ℚ × ℚ × ℚ).2.1
      ≤ (("A", 10, 2, 1) : String × ℚ × ℚ × ℚ).2.1 :=
  (C7_amended_ranked ex7).2.1 (sortDesc (fun p => p.2.1) (prodAgg ex7))
    (C7_amended_ranked ex7).1
    ("A", 10, 2, 1) (by rw [prodAgg_ex7]; decide)
    ("B", 10, 1, 1) (by rw [prodAgg_ex7]; decide)
